import Mathlib

/-!
# Verification of the WebScraper resolution-and-validation engine

Shallow embedding of `src/scrapper.py` (the single source file of the
repository `jeet056/WebScraper`).  Pure string-manipulation functions are
translated directly; every network- or browser-bound collaborator
(`fetch_page`, `search_engines_for_linkedin`, `requests.head` probes,
`find_linkedin_in_subpages`, the Selenium-rendered LinkedIn page) is modelled
as an oracle field of an `Env` record, and the orchestrator `scrape_company`
is embedded as a function from that oracle to its result value, together with
a trace of the external calls it issues.

All definitions are structural recursions over `List Char`, so concrete runs
evaluate inside the kernel (`decide` / `rfl`).
-/

/-! ## Python string primitives

Helpers mirroring the exact Python string operations used by the scraper.
All operate on explicit character lists.  The scraper only ever handles
ASCII data, so ASCII case-mapping and the ASCII whitespace class are the
faithful interpretation of `str.lower`, `str.strip`, `str.split` and `\w`
here. -/

/-- Python `str` whitespace (ASCII part): the class used by `strip()`,
`split()` and `\s`. -/
def pythonWs : List Char := [' ', '\t', '\n', '\r', '\x0b', '\x0c']

def isPyWs (c : Char) : Bool := pythonWs.contains c

/-- Python `\w` character class (ASCII part): alphanumeric or underscore. -/
def isWordCh (c : Char) : Bool := c.isAlphanum || c = '_'

def lowerL (l : List Char) : List Char := l.map Char.toLower

/-- Python `s.strip()` on a character list. -/
def pyStripL (l : List Char) : List Char :=
  ((l.dropWhile isPyWs).reverse.dropWhile isPyWs).reverse

def pyStrip (s : String) : String := ⟨pyStripL s.data⟩

/-- Substring test on character lists: Python `pat in hay`. -/
def hasSubL : List Char → List Char → Bool
  | [], pat => pat.isEmpty
  | c :: t, pat => pat.isPrefixOf (c :: t) || hasSubL t pat

/-- Python `pat in hay` on strings. -/
def hasSub (hay pat : String) : Bool := hasSubL hay.data pat.data

/-- Python `s.startswith(pre)`. -/
def strStarts (s pre : String) : Bool := pre.data.isPrefixOf s.data

/-- Split at every character satisfying `p`, keeping empty pieces
(Python `re.split` on a character class, and `str.split(c)` for a
one-character separator). -/
def splitByAux (p : Char → Bool) (cur : List Char) : List Char → List (List Char)
  | [] => [cur.reverse]
  | c :: t => if p c then cur.reverse :: splitByAux p [] t else splitByAux p (c :: cur) t

def splitBy (p : Char → Bool) (l : List Char) : List (List Char) := splitByAux p [] l

/-- Python `s.split()` (no argument): split on whitespace runs, dropping
empty pieces. -/
def pyWords (l : List Char) : List (List Char) :=
  (splitBy isPyWs l).filter (fun w => !w.isEmpty)

/-- Python `host.replace("www.", "")`: delete every occurrence of `www.`,
scanning left to right without overlap. -/
def removeWWWL : List Char → List Char
  | 'w' :: 'w' :: 'w' :: '.' :: t => removeWWWL t
  | c :: t => c :: removeWWWL t
  | [] => []

/-- Python `str.capitalize()`: first character uppercased, the rest
lowercased. -/
def pyCapitalize : List Char → List Char
  | [] => []
  | c :: t => c.toUpper :: lowerL t

/-! ## URL parsing

Models `urllib.parse.urlparse(url).hostname` (an external library the
scraper calls): the authority is present only after `//` (following an
optional `scheme:`), user-info before the last `@` and a `:port` are
removed, and the result is lowercased; an absent or empty host is `None`. -/

def isSchemeChar (c : Char) : Bool := c.isAlphanum || c = '+' || c = '-' || c = '.'

/-- Remove a leading `scheme:` if the characters before the first `:` form a
valid scheme (first character alphabetic). -/
def dropSchemeL (l : List Char) : List Char :=
  let pre := l.takeWhile isSchemeChar
  match l.drop pre.length with
  | ':' :: rest => if pre ≠ [] ∧ (pre.headD ' ').isAlpha then rest else l
  | _ => l

def hostnameOf (url : String) : Option String :=
  match dropSchemeL url.data with
  | '/' :: '/' :: r =>
    let netloc := r.takeWhile (fun c => c ≠ '/' ∧ c ≠ '?' ∧ c ≠ '#')
    let afterAt := (splitBy (· = '@') netloc).getLastD []
    let hostPart := (splitBy (· = ':') afterAt).headD []
    if hostPart = [] then none else some ⟨lowerL hostPart⟩
  | _ => none

/-- `urlparse(url).hostname or ""`, then `host.replace("www.", "")`, then
`.split(".")[0]` — the domain's first label, as computed at
`src/scrapper.py:324-325`, `:782-783` and `:828-829`. -/
def firstLabelOf (url : String) : String :=
  let host := (hostnameOf url).getD ""
  ⟨(splitBy (· = '.') (removeWWWL host.data)).headD []⟩

/-- Models `urllib.parse.urljoin` for the reference shapes this scraper can
see (scheme-relative and absolute-path references); relative-path merging
and dot-segment normalization of full RFC 3986 belong to the external
library and are never exercised by the claims. -/
def urljoin (base ref : String) : String :=
  let sch := base.data.takeWhile isSchemeChar
  match dropSchemeL base.data with
  | '/' :: '/' :: r =>
    let netloc := r.takeWhile (fun c => c ≠ '/' ∧ c ≠ '?' ∧ c ≠ '#')
    if strStarts ref "//" then ⟨sch⟩ ++ ":" ++ ref
    else if strStarts ref "/" then ⟨sch⟩ ++ "://" ++ ⟨netloc⟩ ++ ref
    else ⟨sch⟩ ++ "://" ++ ⟨netloc⟩ ++ "/" ++ ref
  | _ => ref

/-! ## OverviewSufficiencyGate — `is_overview_empty_or_insufficient`
(src/scrapper.py:338-371) -/

def generic_phrases : List String :=
  ["welcome to", "coming soon", "under construction", "page not found",
   "home page", "official website", "main page", "default page"]

def is_overview_empty_or_insufficient (overview : String) : Bool :=
  if overview = "" then true
  else
    let o := pyStrip overview
    if o.data.length < 20 then true
    else if generic_phrases.any (fun ph => hasSub ⟨lowerL o.data⟩ ph) then true
    else if (pyWords o.data).length < 5 then true
    else false

/-! ## NameResolver — `extract_company_name_from_url`
(src/scrapper.py:779-820) -/

def prefixes_to_remove : List String := ["get", "my", "the", "app", "web", "site", "go", "try"]

def suffixes_to_remove : List String := ["app", "web", "site", "io", "ai", "tech", "co", "inc"]

/-- Lines 794-797: strip the first matching listed word from the front, only
if the remainder would be non-empty, at most once (the loop breaks). -/
def stripPreOnce (l : List Char) : List Char :=
  match prefixes_to_remove.find?
      (fun p => p.data.isPrefixOf l && decide (p.data.length < l.length)) with
  | some p => l.drop p.data.length
  | none => l

/-- Lines 800-803: strip the first matching listed word from the back, only
if the remainder would be non-empty, at most once (the loop breaks). -/
def stripSufOnce (l : List Char) : List Char :=
  match suffixes_to_remove.find?
      (fun p => p.data.isSuffixOf l && decide (p.data.length < l.length)) with
  | some p => l.take (l.length - p.data.length)
  | none => l

/-- The prefix-then-suffix stripping rule of lines 789-803, applied to a
(lowercased) domain label. -/
def stripDomainAffixes (s : String) : String := ⟨stripSufOnce (stripPreOnce s.data)⟩

def extract_company_name_from_url (url : String) : String :=
  let domain := firstLabelOf url
  let clean := (stripDomainAffixes ⟨lowerL domain.data⟩).data
  if clean.contains '-' then
    ⟨List.intercalate [' ']
      (((splitBy (· = '-') clean).filter (fun w => !w.isEmpty)).map pyCapitalize)⟩
  else if clean.contains '_' then
    ⟨List.intercalate [' ']
      (((splitBy (· = '_') clean).filter (fun w => !w.isEmpty)).map pyCapitalize)⟩
  else ⟨pyCapitalize clean⟩

/-! ## NameValidator — `validate_name_against_url`
(src/scrapper.py:822-871) -/

/-- Lines 833-834: lowercase, drop everything but `\w` and whitespace, then
drop the whitespace — i.e. keep only word characters. -/
def cleanNameChars (s : String) : List Char := (lowerL s.data).filter isWordCh

/-- Line 862: `sum(1 for c in clean_extracted if c in domain)`. -/
def commonCharCount (a b : List Char) : Nat := (a.filter b.contains).length

def validate_name_against_url (extracted_name url : String) : Bool :=
  if extracted_name = "" ∨ url = "" then false
  else
    let domainL := lowerL (firstLabelOf url).data
    let extractedLowerWords := pyWords (lowerL extracted_name.data)
    let clean := cleanNameChars extracted_name
    -- lines 837: direct containment either way
    if hasSubL clean domainL || hasSubL domainL clean then true
    -- lines 841-849: hyphenated domain, any part containment either way
    else if domainL.contains '-' &&
        (splitBy (· = '-') domainL).any (fun dp =>
          extractedLowerWords.any (fun ep => hasSubL ep dp || hasSubL dp ep)) then true
    -- lines 852-856: multi-word name, any word of length > 2 inside the domain
    else if decide (1 < extractedLowerWords.length) &&
        extractedLowerWords.any (fun w => decide (2 < w.length) && hasSubL domainL w) then true
    -- lines 858-865: character-overlap similarity, only when both sides have
    -- length > 3.  `common / max(...) >= 0.6` on Python floats: for these
    -- small integer counts the double rounding of the quotient can never
    -- cross the 0.6 literal, so the test is exactly `5 * common ≥ 3 * max`.
    else if decide (3 < clean.length) && decide (3 < domainL.length) &&
        decide (3 * max clean.length domainL.length ≤ 5 * commonCharCount clean domainL) then true
    else false

/-! ## ProfileLocator helper — `generate_linkedin_url`
(src/scrapper.py:105-150) -/

def corporate_suffix_words : List String :=
  ["inc", "corp", "corporation", "company", "co", "ltd", "limited",
   "llc", "group", "holdings", "the", "and", "&"]

/-- `re.sub(rf'\b{tok}\b', '', s)` for an alphanumeric token: because the
token consists of word characters, a `\b`-delimited occurrence is exactly a
maximal word-character run equal to the token, so delete those runs. -/
def removeWordRunAux (tok : List Char) (run : List Char) : List Char → List Char
  | [] => if run.reverse = tok then [] else run.reverse
  | c :: t =>
    if isWordCh c then removeWordRunAux tok (c :: run) t
    else (if run.reverse = tok then [] else run.reverse) ++ c :: removeWordRunAux tok [] t

def removeWordToken (tok : List Char) (l : List Char) : List Char :=
  removeWordRunAux tok [] l

/-- `re.sub(r'\b&\b', '', s)`: `&` is not a word character, so the
boundaries require a word character immediately before and after the `&`
in the original string. -/
def removeAmpAux (prevWord : Bool) : List Char → List Char
  | [] => []
  | c :: t =>
    if c = '&' ∧ prevWord ∧ isWordCh (t.headD '-') then removeAmpAux false t
    else c :: removeAmpAux (isWordCh c) t

/-- Lines 117-118: remove each corporate-suffix word, in list order. -/
def removeCorpWords (l : List Char) : List Char :=
  corporate_suffix_words.foldl
    (fun acc tok => if tok = "&" then removeAmpAux false acc else removeWordToken tok.data acc)
    l

/-- `re.sub(r'-+', '-', s)`. -/
def collapseHyphens : List Char → List Char
  | [] => []
  | [c] => [c]
  | c :: d :: t =>
    if c = '-' ∧ d = '-' then collapseHyphens (d :: t) else c :: collapseHyphens (d :: t)

/-- Python `s.strip('-')`. -/
def stripHyphens (l : List Char) : List Char :=
  ((l.dropWhile (· = '-')).reverse.dropWhile (· = '-')).reverse

def generate_linkedin_url (company_name : String) : Option (List String) :=
  if company_name = "" then none
  else
    let lowered : String := ⟨lowerL company_name.data⟩
    -- lines 117-118: remove corporate-suffix words
    let noCorp := removeCorpWords lowered.data
    -- line 121: re.sub(r'[^\w\s-]', '', ...)
    let kept := noCorp.filter (fun c => isWordCh c || isPyWs c || c = '-')
    -- lines 122-124: strip, whitespace runs to '-', collapse '-' runs, strip '-'
    let slug : String :=
      ⟨stripHyphens (collapseHyphens ((pyStripL kept).map (fun c => if isPyWs c then '-' else c)))⟩
    if slug = "" then none
    else
      let base := "https://www.linkedin.com/company/" ++ slug
      let extra :=
        if hasSub lowered "google" || hasSub lowered "alphabet" then
          ["https://www.linkedin.com/company/google"]
        else if hasSub lowered "apple" then ["https://www.linkedin.com/company/apple"]
        else if hasSub lowered "microsoft" then ["https://www.linkedin.com/company/microsoft"]
        else if hasSub lowered "amazon" then ["https://www.linkedin.com/company/amazon"]
        else if hasSub lowered "meta" || hasSub lowered "facebook" then
          ["https://www.linkedin.com/company/meta"]
        else if hasSub lowered "netflix" then ["https://www.linkedin.com/company/netflix"]
        else []
      some ([base, base ++ "-inc", base ++ "-corp", base ++ "-company"] ++ extra)

/-! ## The fetched-document model and the external-collaborator oracle

`Doc` records exactly the observations `scrape_company` makes of the fetched
homepage: the texts produced by the ten name-bearing selectors of
`extract_name_from_title` (line 296-307, in order; `none` = selector matched
nothing), the `<title>` content (`none` = no title element, in which case
`doc.title.string` at line 321 raises `AttributeError`), the hrefs of the
`a[href*="linkedin.com"]` anchors (line 718), and the outcome of the
overview-selection block (lines 660-707, a pure DOM computation producing a
string, possibly empty).

`Env` holds the network-bound collaborators: the homepage fetch (line 602,
`none` = `fetch_page` raised), `search_engines_for_linkedin` (lines 245-262),
the per-URL HEAD existence probe used by `verify_linkedin_url` (lines
264-290: `true` = the probe returned 200 without raising),
`find_linkedin_in_subpages` (lines 60-103, whose outcome depends only on the
base URL; its `company_name` parameter is unused in the source), and the
data extractable from a rendered LinkedIn page, consumed by
`scrape_linkedin_info` (lines 374-595). -/

structure Doc where
  metaNames : List (Option String)
  title : Option String
  linkedinHrefs : List String
  overview : String
deriving DecidableEq

structure LIData where
  name : Option String
  overview : Option String
  companySize : Option String
  industry : Option String
  linkedinError : Option String
deriving DecidableEq

structure Env where
  fetchHome : Option Doc
  fetchError : String
  searchEngines : String → Option String
  verifyOne : String → Bool
  subpagesResult : Option String
  liPage : String → LIData

/-- Trace of external calls issued during one resolution, in order. -/
inductive Ev where
  | fetchHome (url : String)
  | search (name : String)
  | verify (urls : List String)
  | subpages (base : String)
  | scrapeLI (url : String) (needOverview extractName : Bool)
deriving DecidableEq

/-- Python truthiness of an optional string: `None` and `""` are falsy. -/
def truthy : Option String → Bool
  | none => false
  | some s => s != ""

/-! ## `verify_linkedin_url` (src/scrapper.py:264-290) -/

/-- Returns the first URL of the list whose HEAD probe succeeds (status 200,
no exception); `None` otherwise.  A single string argument is wrapped into a
one-element list by the source before this loop. -/
def verify_linkedin_url (env : Env) (urls : List String) : Option String :=
  urls.find? env.verifyOne

/-! ## `scrape_linkedin_info` (src/scrapper.py:374-595) -/

/-- The company-name extraction sequence runs only when `extract_name` is
set (lines 430-466) and the overview extraction only when `need_overview`
is set (lines 469-515); company size and industry are always attempted
(lines 517-583). -/
def scrape_linkedin_info (env : Env) (u : String) (needOverview extractName : Bool) : LIData :=
  let page := env.liPage u
  { name := if extractName then page.name else none
    overview := if needOverview then page.overview else none
    companySize := page.companySize
    industry := page.industry
    linkedinError := page.linkedinError }

/-! ## NameResolver — `extract_name_from_title` (src/scrapper.py:293-336) -/

def junk_titles : List String :=
  ["home", "welcome", "dashboard", "page", "watch", "online", "streaming", "movies", "tv shows"]

/-- Python `[|\-:@–•]` — the title delimiter class of line 322. -/
def title_delims : List Char := ['|', '-', ':', '@', '–', '•']

/-- Python `max(candidates, key=len)`: the first element of maximal length. -/
def maxByLen (h : String) (t : List String) : String :=
  t.foldl (fun best p => if best.data.length < p.data.length then p else best) h

/-- Lines 309-319: the first selector whose (stripped) text has length in
`(1, 100)` wins. -/
def metaNameHit (doc : Doc) : Option String :=
  doc.metaNames.findSome? (fun o =>
    match o with
    | none => none
    | some raw =>
      let name := pyStrip raw
      if 1 < name.data.length ∧ name.data.length < 100 then some name else none)

/-- Lines 293-336.  When no selector hits and the document has no `<title>`
element, `doc.title` is `None` and line 321 (`doc.title.string`) raises; the
`.error` case models that exception, which no handler inside
`scrape_company`'s body catches. -/
def extract_name_from_title (doc : Doc) (url : String) : Except String String :=
  match metaNameHit doc with
  | some n => .ok n
  | none =>
    match doc.title with
    | none => .error "AttributeError: NoneType object has no attribute string"
    | some t =>
      let raw := pyStrip t
      let parts : List String :=
        (((splitBy (fun c => title_delims.contains c) raw.data).map pyStripL).filter
          (fun w => !w.isEmpty)).map (fun w => ⟨w⟩)
      let domain : String := ⟨lowerL (firstLabelOf url).data⟩
      -- lines 327-330: a part all of whose words occur inside the domain
      match parts.find? (fun p => (pyWords (lowerL p.data)).all (fun w => hasSubL domain.data w)) with
      | some p => .ok p
      | none =>
        -- lines 331-336: longest non-junk part, else the first part, else ""
        let candidates := parts.filter (fun p => !junk_titles.contains (⟨lowerL p.data⟩ : String))
        match candidates with
        | c :: cs => .ok (maxByLen c cs)
        | [] => .ok (parts.headD "")

/-! ## The result record

`scrape_company` builds a dict incrementally; the embedding collapses that
into one record built at the end of each path.  `none` stands for a key that
is absent or set to `None` (no claim distinguishes the two). -/

structure Result where
  url : String
  name : Option String
  overview : Option String
  linkedin : Option String
  industry : Option String
  companySize : Option String
  overviewWarning : Option String
  linkedinError : Option String
  error : Option String
deriving DecidableEq

def emptyResult (url : String) : Result :=
  { url := url, name := none, overview := none, linkedin := none, industry := none,
    companySize := none, overviewWarning := none, linkedinError := none, error := none }

/-! ## Orchestrator — `scrape_company` (src/scrapper.py:598-777) -/

/-- Lines 629-655, entered when the extracted name failed validation and the
URL-derived expected name is non-empty: search the engines for the expected
name; if a URL comes back and verifies, scrape it for a name and prefer that
name over the expected one; if verification fails the expected name is used
— but the unverified URL is NOT cleared (`linkedin_url` keeps it).
Returns (final_name, linkedin_url, trace). -/
def nameFallback (env : Env) (expected : String) : String × Option String × List Ev :=
  match env.searchEngines expected with
  | none => (expected, none, [Ev.search expected])
  | some u =>
    if u = "" then (expected, some "", [Ev.search expected])
    else
      match verify_linkedin_url env [u] with
      | some v =>
        let li := scrape_linkedin_info env v false true
        let finalName :=
          match li.name with
          | some n => if n = "" then expected else n
          | none => expected
        (finalName, some v, [Ev.search expected, Ev.verify [u], Ev.scrapeLI v false true])
      | none => (expected, some u, [Ev.search expected, Ev.verify [u]])

/-- Lines 717-726 (called "Strategy 2" in the source): first in-page anchor
whose href contains `/company/`; relative hrefs resolved against the page
URL.  No network call is involved. -/
def pageScan (doc : Doc) (url : String) : Option String :=
  doc.linkedinHrefs.findSome? (fun href =>
    if hasSub href "/company/" then
      some (if strStarts href "http" then href else urljoin url href)
    else none)

/-- Lines 717-726 ("Strategy 2"): guarded by `if not linkedin_url`, scans
the already-fetched document; a hit replaces `linkedin_url`, otherwise it is
left as it was. -/
def strategy2 (doc : Doc) (url : String) (cur : Option String) : Option String :=
  if truthy cur then cur
  else
    match pageScan doc url with
    | some v => some v
    | none => cur

/-- Lines 728-735 ("Strategy 3"): guarded by `if not linkedin_url and name`,
queries the search engines for the extracted homepage name; a truthy result
is then overwritten by the verification outcome (`None` on failure). -/
def strategy3 (env : Env) (name : String) (cur : Option String) : Option String × List Ev :=
  if truthy cur = false ∧ name ≠ "" then
    match env.searchEngines name with
    | none => (none, [Ev.search name])
    | some u =>
      if u = "" then (some "", [Ev.search name])
      else (verify_linkedin_url env [u], [Ev.search name, Ev.verify [u]])
  else (cur, [])

/-- Lines 737-739 ("Strategy 4"): guarded by `if not linkedin_url`,
overwrites `linkedin_url` with the common-subpage scan result. -/
def strategy4 (env : Env) (url : String) (cur : Option String) : Option String × List Ev :=
  if truthy cur = false then (env.subpagesResult, [Ev.subpages url]) else (cur, [])

/-- Lines 741-745 ("Strategy 5"): guarded by `if not linkedin_url and name`,
generates candidate URLs from the name and keeps the first that verifies. -/
def strategy5 (env : Env) (name : String) (cur : Option String) : Option String × List Ev :=
  if truthy cur = false ∧ name ≠ "" then
    match generate_linkedin_url name with
    | some urls => (verify_linkedin_url env urls, [Ev.verify urls])
    | none => (cur, [])
  else (cur, [])

/-- Lines 716-745: the discovery chain as executed by the source, starting
from the `linkedin_url` left by the validation branch (`cur`): (2) in-page
link scan, (3) search engines + verification, (4) common-subpage scan, (5)
name-based generation + verification — each stage guarded by
`if not linkedin_url` (Python truthiness). -/
def discoverProfile (env : Env) (doc : Doc) (url name : String) (cur : Option String) :
    Option String × List Ev :=
  let l1 := strategy2 doc url cur
  let s3 := strategy3 env name l1
  let s4 := strategy4 env url s3.1
  let s5 := strategy5 env name s4.1
  (s5.1, s3.2 ++ s4.2 ++ s5.2)

/-- Lines 598-777.  The outer `try` wraps the whole body: a raise anywhere
inside it (the fetch at line 602, or `extract_name_from_title` at line 617
on a titleless document) reaches the handler at lines 775-777, which returns
`{'url': url, 'error': str(e)}`.  On the success path the final dict is
assembled here field by field:
`name` (line 657, possibly overwritten by `out.update(li_info)` at 764),
`overview` (line 714, possibly replaced at 760), `linkedin` (line 747),
enrichment fields (line 764) and `overviewWarning` (line 771). -/
def scrape_company (env : Env) (url : String) : Result × List Ev :=
  match env.fetchHome with
  | none => ({ emptyResult url with error := some env.fetchError }, [Ev.fetchHome url])
  | some doc =>
    match extract_name_from_title doc url with
    | .error e => ({ emptyResult url with error := some e }, [Ev.fetchHome url])
    | .ok name =>
      let url_expected_name := extract_company_name_from_url url
      let name_is_valid := validate_name_against_url name url
      let fb :=
        if name_is_valid = false ∧ url_expected_name ≠ "" then nameFallback env url_expected_name
        else (name, (none : Option String), ([] : List Ev))
      let final_name := fb.1
      let overview := doc.overview
      let need_linkedin_overview := is_overview_empty_or_insufficient overview
      let disc := discoverProfile env doc url name fb.2.1
      let linkedin_url := disc.1
      if truthy linkedin_url then
        let u := linkedin_url.getD ""
        -- line 754: extract_name = bool(linkedin_url) and not bool(final_name)
        let exName := decide (final_name = "")
        let li := scrape_linkedin_info env u need_linkedin_overview exName
        -- lines 758-762: swap in the LinkedIn overview and pop it from li_info
        let ovSwap : String × Option String :=
          if need_linkedin_overview ∧ truthy li.overview then (li.overview.getD "", none)
          else (overview, li.overview)
        ({ url := url
           name := some (li.name.getD final_name)
           overview := some (ovSwap.2.getD ovSwap.1)
           linkedin := linkedin_url
           industry := li.industry
           companySize := li.companySize
           overviewWarning := none
           linkedinError := li.linkedinError
           error := none },
         Ev.fetchHome url :: (fb.2.2 ++ disc.2 ++ [Ev.scrapeLI u need_linkedin_overview exName]))
      else
        ({ url := url
           name := some final_name
           overview := some overview
           linkedin := linkedin_url
           industry := none
           companySize := none
           overviewWarning :=
             if need_linkedin_overview then
               some "Overview is insufficient and no LinkedIn URL found for fallback"
             else none
           linkedinError := none
           error := none },
         Ev.fetchHome url :: (fb.2.2 ++ disc.2))

/-! ## Auxiliary definitions used by the claim statements -/

/-- The overview sufficiency gate as worded by the specification: true
exactly when the text is empty or whitespace-only, or its trimmed length is
below 20, or it contains a fixed boilerplate phrase as a case-insensitive
substring, or its word count is below 5. -/
def specInsufficient (text : String) : Bool :=
  let t := pyStrip text
  decide (t = "") || decide (t.data.length < 20) ||
    generic_phrases.any (fun ph => hasSub ⟨lowerL t.data⟩ ph) ||
    decide ((pyWords t.data).length < 5)

/-- Some listed word could still be stripped from the front of `s` by one
more application of the stripping rule. -/
def hasStrippableFront (s : String) : Bool :=
  prefixes_to_remove.any (fun p => p.data.isPrefixOf s.data && decide (p.data.length < s.data.length))

/-- Some listed word could still be stripped from the back of `s` by one
more application of the stripping rule. -/
def hasStrippableBack (s : String) : Bool :=
  suffixes_to_remove.any (fun p => p.data.isSuffixOf s.data && decide (p.data.length < s.data.length))

/-! ## Concrete oracle instantiations used to run the embedded code -/

def noLIData : LIData :=
  { name := none, overview := none, companySize := none, industry := none, linkedinError := none }

/-- A sufficient overview (75 characters, 9 words, no boilerplate phrase). -/
def goodOverview : String :=
  "We build distributed storage systems for financial institutions worldwide."

/-- A fetched homepage with no name-bearing selector hit and no `<title>`
element. -/
def docNoTitle : Doc := { metaNames := [], title := none, linkedinHrefs := [], overview := "" }

/-- Environment whose homepage fetch succeeds with `docNoTitle`. -/
def envNoTitle : Env :=
  { fetchHome := some docNoTitle, fetchError := "boom", searchEngines := fun _ => none,
    verifyOne := fun _ => false, subpagesResult := none, liPage := fun _ => noLIData }

/-- Homepage of `acme.com` whose selector hit is the matching name `Acme`,
with no LinkedIn anchors and a sufficient overview. -/
def docAcmeNoLinks : Doc :=
  { metaNames := [some "Acme"], title := some "Acme", linkedinHrefs := [], overview := goodOverview }

/-- Search engines find nothing; the common-subpage scan finds the company
page; probes fail; the LinkedIn page yields nothing. -/
def envSubpagesOnly : Env :=
  { fetchHome := some docAcmeNoLinks, fetchError := "", searchEngines := fun _ => none,
    verifyOne := fun _ => false,
    subpagesResult := some "https://www.linkedin.com/company/acme", liPage := fun _ => noLIData }

/-- Homepage of `acme.com` with a matching name, a LinkedIn company anchor
directly in the markup, and a sufficient overview. -/
def docAcmeWithLink : Doc :=
  { metaNames := [some "Acme"], title := some "Acme",
    linkedinHrefs := ["https://www.linkedin.com/company/acme"], overview := goodOverview }

/-- No other external source yields anything. -/
def envPageLinkOnly : Env :=
  { fetchHome := some docAcmeWithLink, fetchError := "", searchEngines := fun _ => none,
    verifyOne := fun _ => false, subpagesResult := none, liPage := fun _ => noLIData }

/-- Homepage of `acme.com` whose extracted name `Zzzz Qqq` does not match
the domain. -/
def docMismatch : Doc :=
  { metaNames := [some "Zzzz Qqq"], title := some "Zzzz Qqq", linkedinHrefs := [],
    overview := goodOverview }

/-- Searching for the URL-derived name `Acme` returns a LinkedIn URL whose
existence probe fails. -/
def envUnverifiedSearch : Env :=
  { fetchHome := some docMismatch, fetchError := "",
    searchEngines := fun n => if n = "Acme" then some "https://www.linkedin.com/company/ghost" else none,
    verifyOne := fun _ => false, subpagesResult := none, liPage := fun _ => noLIData }

/-- Homepage of `zzz.com` whose extracted name `Wholly Unrelated` does not
match the domain; the search for the URL-derived name `Zzz` returns a URL
that verifies, and the profile page yields the name `Zzz Systems`. -/
def docZzz : Doc :=
  { metaNames := [some "Wholly Unrelated"], title := some "Wholly Unrelated",
    linkedinHrefs := [], overview := goodOverview }

def envProfileName : Env :=
  { fetchHome := some docZzz, fetchError := "",
    searchEngines := fun n => if n = "Zzz" then some "https://www.linkedin.com/company/zzz" else none,
    verifyOne := fun u => u = "https://www.linkedin.com/company/zzz",
    subpagesResult := none,
    liPage := fun u =>
      if u = "https://www.linkedin.com/company/zzz" then { noLIData with name := some "Zzz Systems" }
      else noLIData }

/-! # Theorems -/

/-! ## Shared helper lemmas -/

/-- A name that validates against a URL is non-empty (line 824 rejects empty
names outright). -/
theorem validate_true_name_ne {nm url : String}
    (h : validate_name_against_url nm url = true) : nm ≠ "" := by
  intro he
  subst he
  unfold validate_name_against_url at h
  simp at h

theorem strategy2_of_truthy (doc : Doc) (url : String) {cur : Option String}
    (h : truthy cur = true) : strategy2 doc url cur = cur := by
  unfold strategy2
  simp [h]

theorem strategy3_of_truthy (env : Env) (nm : String) {cur : Option String}
    (h : truthy cur = true) : strategy3 env nm cur = (cur, []) := by
  unfold strategy3
  simp [h]

theorem strategy4_of_truthy (env : Env) (url : String) {cur : Option String}
    (h : truthy cur = true) : strategy4 env url cur = (cur, []) := by
  unfold strategy4
  simp [h]

theorem strategy5_of_truthy (env : Env) (nm : String) {cur : Option String}
    (h : truthy cur = true) : strategy5 env nm cur = (cur, []) := by
  unfold strategy5
  simp [h]

/-- A URL already present when the discovery chain starts short-circuits all
of its stages (every stage is guarded by `if not linkedin_url`). -/
theorem discoverProfile_of_truthy (env : Env) (doc : Doc) (url nm : String)
    (cur : Option String) (h : truthy cur = true) :
    discoverProfile env doc url nm cur = (cur, []) := by
  simp only [discoverProfile]
  rw [strategy2_of_truthy doc url h, strategy3_of_truthy env nm h]
  dsimp only
  rw [strategy4_of_truthy env url h]
  dsimp only
  rw [strategy5_of_truthy env nm h]
  simp

theorem verify_one (env : Env) (u : String) :
    verify_linkedin_url env [u] = if env.verifyOne u then some u else none := by
  unfold verify_linkedin_url
  cases h : env.verifyOne u <;> simp [List.find?, h]

theorem strategy2_none (doc : Doc) (url : String) :
    strategy2 doc url none = pageScan doc url := by
  unfold strategy2
  rcases h : pageScan doc url with _ | v <;> simp [truthy, h]

theorem strategy3_of_name_empty (env : Env) (cur : Option String) :
    strategy3 env "" cur = (cur, []) := by
  unfold strategy3
  simp

theorem strategy3_eval_no_hit (env : Env) (nm : String) (cur : Option String)
    (hc : truthy cur = false) (hnm : nm ≠ "") (hse : env.searchEngines nm = none) :
    strategy3 env nm cur = (none, [Ev.search nm]) := by
  unfold strategy3
  rw [if_pos ⟨hc, hnm⟩, hse]

theorem strategy3_eval_empty_hit (env : Env) (nm : String) (cur : Option String)
    (hc : truthy cur = false) (hnm : nm ≠ "") (hse : env.searchEngines nm = some "") :
    strategy3 env nm cur = (some "", [Ev.search nm]) := by
  unfold strategy3
  rw [if_pos ⟨hc, hnm⟩, hse]
  dsimp only
  rw [if_pos rfl]

theorem strategy3_eval_hit (env : Env) (nm : String) (cur : Option String) (u : String)
    (hc : truthy cur = false) (hnm : nm ≠ "") (hse : env.searchEngines nm = some u)
    (hu : u ≠ "") :
    strategy3 env nm cur =
      ((if env.verifyOne u then some u else none), [Ev.search nm, Ev.verify [u]]) := by
  unfold strategy3
  rw [if_pos ⟨hc, hnm⟩, hse]
  dsimp only
  rw [if_neg hu, verify_one]

theorem strategy4_eval (env : Env) (url : String) (cur : Option String)
    (hc : truthy cur = false) :
    strategy4 env url cur = (env.subpagesResult, [Ev.subpages url]) := by
  unfold strategy4
  rw [if_pos hc]

theorem strategy5_of_name_empty (env : Env) (cur : Option String) :
    strategy5 env "" cur = (cur, []) := by
  unfold strategy5
  simp

theorem strategy5_eval_no_gen (env : Env) (nm : String) (cur : Option String)
    (hc : truthy cur = false) (hnm : nm ≠ "") (hgen : generate_linkedin_url nm = none) :
    strategy5 env nm cur = (cur, []) := by
  unfold strategy5
  rw [if_pos ⟨hc, hnm⟩, hgen]

theorem strategy5_eval_gen (env : Env) (nm : String) (cur : Option String) (us : List String)
    (hc : truthy cur = false) (hnm : nm ≠ "") (hgen : generate_linkedin_url nm = some us) :
    strategy5 env nm cur = (verify_linkedin_url env us, [Ev.verify us]) := by
  unfold strategy5
  rw [if_pos ⟨hc, hnm⟩, hgen]

/-- `generate_linkedin_url` always proposes at least the four base variants. -/
theorem generate_linkedin_url_len {nm : String} {us : List String}
    (h : generate_linkedin_url nm = some us) : 4 ≤ us.length := by
  unfold generate_linkedin_url at h
  split at h
  · exact absurd h (by simp)
  · dsimp only at h
    split at h
    · exact absurd h (by simp)
    · simp only [Option.some.injEq] at h
      subst h
      simp

/-- Compose the four stages into a run of the discovery chain. -/
theorem discoverProfile_build (env : Env) (doc : Doc) (url nm : String)
    (l1 v2 v3 v4 : Option String) (t2 t3 t4 : List Ev)
    (h2 : strategy2 doc url none = l1)
    (h3 : strategy3 env nm l1 = (v2, t2))
    (h4 : strategy4 env url v2 = (v3, t3))
    (h5 : strategy5 env nm v3 = (v4, t4)) :
    discoverProfile env doc url nm none = (v4, t2 ++ t3 ++ t4) := by
  simp only [discoverProfile]
  rw [h2, h3]
  dsimp only
  rw [h4]
  dsimp only
  rw [h5]

/-- Exhaustive enumeration of the outcomes of the discovery chain when the
validation branch left no URL: which stages run, in which order their
external calls appear in the trace, and what value is returned. -/
theorem discoverProfile_none_spec (env : Env) (doc : Doc) (url nm : String) :
    (truthy (pageScan doc url) = true ∧
      discoverProfile env doc url nm none = (pageScan doc url, [])) ∨
    (truthy (pageScan doc url) = false ∧ nm = "" ∧
      discoverProfile env doc url nm none = (env.subpagesResult, [Ev.subpages url])) ∨
    (truthy (pageScan doc url) = false ∧ nm ≠ "" ∧
      ∃ v2 t2,
        ((env.searchEngines nm = none ∧ v2 = none ∧ t2 = [Ev.search nm]) ∨
         (env.searchEngines nm = some "" ∧ v2 = some "" ∧ t2 = [Ev.search nm]) ∨
         (∃ u, env.searchEngines nm = some u ∧ u ≠ "" ∧
           v2 = (if env.verifyOne u then some u else none) ∧
           t2 = [Ev.search nm, Ev.verify [u]])) ∧
        ((truthy v2 = true ∧ discoverProfile env doc url nm none = (v2, t2)) ∨
         (truthy v2 = false ∧
           ((truthy env.subpagesResult = true ∧
              discoverProfile env doc url nm none =
                (env.subpagesResult, t2 ++ [Ev.subpages url])) ∨
            (truthy env.subpagesResult = false ∧
              ((generate_linkedin_url nm = none ∧
                 discoverProfile env doc url nm none =
                   (env.subpagesResult, t2 ++ [Ev.subpages url])) ∨
               (∃ us, generate_linkedin_url nm = some us ∧
                 discoverProfile env doc url nm none =
                   (verify_linkedin_url env us,
                    t2 ++ [Ev.subpages url, Ev.verify us])))))))) := by
  cases hps : truthy (pageScan doc url) with
  | true =>
    exact Or.inl ⟨rfl, discoverProfile_build env doc url nm _ _ _ _ _ _ _
      (strategy2_none doc url) (strategy3_of_truthy env nm hps)
      (strategy4_of_truthy env url hps) (strategy5_of_truthy env nm hps)⟩
  | false =>
    by_cases hnm : nm = ""
    · subst hnm
      refine Or.inr (Or.inl ⟨rfl, rfl, ?_⟩)
      have := discoverProfile_build env doc url "" _ _ _ _ _ _ _
        (strategy2_none doc url) (strategy3_of_name_empty env _)
        (strategy4_eval env url _ hps) (strategy5_of_name_empty env _)
      simpa using this
    · refine Or.inr (Or.inr ⟨rfl, hnm, ?_⟩)
      have hrun : ∀ (v2 : Option String) (t2 : List Ev),
          strategy3 env nm (pageScan doc url) = (v2, t2) →
          ((truthy v2 = true ∧ discoverProfile env doc url nm none = (v2, t2)) ∨
           (truthy v2 = false ∧
             ((truthy env.subpagesResult = true ∧
                discoverProfile env doc url nm none =
                  (env.subpagesResult, t2 ++ [Ev.subpages url])) ∨
              (truthy env.subpagesResult = false ∧
                ((generate_linkedin_url nm = none ∧
                   discoverProfile env doc url nm none =
                     (env.subpagesResult, t2 ++ [Ev.subpages url])) ∨
                 (∃ us, generate_linkedin_url nm = some us ∧
                   discoverProfile env doc url nm none =
                     (verify_linkedin_url env us,
                      t2 ++ [Ev.subpages url, Ev.verify us]))))))) := by
        intro v2 t2 h3
        cases hv2 : truthy v2 with
        | true =>
          refine Or.inl ⟨rfl, ?_⟩
          have := discoverProfile_build env doc url nm _ _ _ _ _ _ _
            (strategy2_none doc url) h3 (strategy4_of_truthy env url hv2)
            (strategy5_of_truthy env nm hv2)
          simpa using this
        | false =>
          refine Or.inr ⟨rfl, ?_⟩
          cases hsub : truthy env.subpagesResult with
          | true =>
            refine Or.inl ⟨rfl, ?_⟩
            have := discoverProfile_build env doc url nm _ _ _ _ _ _ _
              (strategy2_none doc url) h3 (strategy4_eval env url _ hv2)
              (strategy5_of_truthy env nm hsub)
            simpa using this
          | false =>
            refine Or.inr ⟨rfl, ?_⟩
            rcases hgen : generate_linkedin_url nm with _ | us
            · refine Or.inl ⟨rfl, ?_⟩
              have := discoverProfile_build env doc url nm _ _ _ _ _ _ _
                (strategy2_none doc url) h3 (strategy4_eval env url _ hv2)
                (strategy5_eval_no_gen env nm _ hsub hnm hgen)
              simpa using this
            · refine Or.inr ⟨us, rfl, ?_⟩
              have := discoverProfile_build env doc url nm _ _ _ _ _ _ _
                (strategy2_none doc url) h3 (strategy4_eval env url _ hv2)
                (strategy5_eval_gen env nm _ us hsub hnm hgen)
              simpa using this
      rcases hse : env.searchEngines nm with _ | u
      · exact ⟨none, [Ev.search nm], Or.inl ⟨rfl, rfl, rfl⟩,
          hrun none [Ev.search nm] (strategy3_eval_no_hit env nm _ hps hnm hse)⟩
      · by_cases hu : u = ""
        · subst hu
          exact ⟨some "", [Ev.search nm], Or.inr (Or.inl ⟨rfl, rfl, rfl⟩),
            hrun (some "") [Ev.search nm] (strategy3_eval_empty_hit env nm _ hps hnm hse)⟩
        · exact ⟨(if env.verifyOne u then some u else none), [Ev.search nm, Ev.verify [u]],
            Or.inr (Or.inr ⟨u, rfl, hu, rfl, rfl⟩),
            hrun _ _ (strategy3_eval_hit env nm _ u hps hnm hse hu)⟩

/-- On the validated-name path (fetch ok, name extracted, validation
passed), the result's `linkedin` field is the discovery outcome and the
trace is the fetch, the discovery calls, then the enrichment call iff a URL
was found. -/
theorem scrape_company_ok_valid (env : Env) (url : String) (doc : Doc) (nm : String)
    (h1 : env.fetchHome = some doc) (h2 : extract_name_from_title doc url = Except.ok nm)
    (h3 : validate_name_against_url nm url = true) :
    (scrape_company env url).1.linkedin = (discoverProfile env doc url nm none).1 ∧
    (scrape_company env url).2 =
      Ev.fetchHome url :: ((discoverProfile env doc url nm none).2 ++
        (if truthy (discoverProfile env doc url nm none).1 = true then
          [Ev.scrapeLI ((discoverProfile env doc url nm none).1.getD "")
            (is_overview_empty_or_insufficient doc.overview) (decide (nm = ""))]
        else [])) := by
  simp only [scrape_company, h1, h2, h3, Bool.true_eq_false, false_and, if_false]
  constructor
  · split <;> rfl
  · split <;> simp

/-- If the in-page scan already produced a usable URL, the discovery chain
makes no external call at all. -/
theorem disc_trace_nil (env : Env) (doc : Doc) (url nm : String)
    (hps : truthy (pageScan doc url) = true) :
    (discoverProfile env doc url nm none).2 = [] := by
  rcases discoverProfile_none_spec env doc url nm with ⟨_, hd⟩ | ⟨h', _, _⟩ | ⟨h', _, _⟩
  · rw [hd]
  · simp [hps] at h'
  · simp [hps] at h'

/-- Any search event in the discovery trace is for the extracted name, and
happens only after the in-page scan produced nothing. -/
theorem disc_search_char (env : Env) (doc : Doc) (url nm s : String)
    (h : Ev.search s ∈ (discoverProfile env doc url nm none).2) :
    s = nm ∧ truthy (pageScan doc url) = false := by
  rcases discoverProfile_none_spec env doc url nm with ⟨_, hd⟩ | ⟨_, _, hd⟩ |
    ⟨hps, hnm, v2, t2, hc, hrest⟩
  · rw [hd] at h
    simp at h
  · rw [hd] at h
    simp at h
  · refine ⟨?_, hps⟩
    rcases hc with ⟨hse, rfl, rfl⟩ | ⟨hse, rfl, rfl⟩ | ⟨u, hse, hu, rfl, rfl⟩ <;>
      rcases hrest with ⟨hT, hd⟩ | ⟨hT, ⟨hS, hd⟩ | ⟨hS, ⟨hg, hd⟩ | ⟨us, hg, hd⟩⟩⟩ <;>
      (rw [hd] at h; simp at h) <;> exact h

/-- If the discovery trace contains a search event at all, it is the first
event of the discovery trace. -/
theorem disc_search_head (env : Env) (doc : Doc) (url nm : String)
    (h : Ev.search nm ∈ (discoverProfile env doc url nm none).2) :
    ∃ rest, (discoverProfile env doc url nm none).2 = Ev.search nm :: rest := by
  rcases discoverProfile_none_spec env doc url nm with ⟨_, hd⟩ | ⟨_, _, hd⟩ |
    ⟨hps, hnm, v2, t2, hc, hrest⟩
  · rw [hd] at h
    simp at h
  · rw [hd] at h
    simp at h
  · rcases hc with ⟨hse, rfl, rfl⟩ | ⟨hse, rfl, rfl⟩ | ⟨u, hse, hu, rfl, rfl⟩ <;>
      rcases hrest with ⟨hT, hd⟩ | ⟨hT, ⟨hS, hd⟩ | ⟨hS, ⟨hg, hd⟩ | ⟨us, hg, hd⟩⟩⟩ <;>
      exact ⟨_, by rw [hd]; try rfl⟩

/-- A subpage-scan event means the in-page scan produced nothing. -/
theorem disc_subpages_char (env : Env) (doc : Doc) (url nm b : String) (hnm : nm ≠ "")
    (h : Ev.subpages b ∈ (discoverProfile env doc url nm none).2) :
    b = url ∧ truthy (pageScan doc url) = false := by
  rcases discoverProfile_none_spec env doc url nm with ⟨_, hd⟩ | ⟨_, hnm0, _⟩ |
    ⟨hps, _, v2, t2, hc, hrest⟩
  · rw [hd] at h
    simp at h
  · exact absurd hnm0 hnm
  · refine ⟨?_, hps⟩
    rcases hc with ⟨hse, rfl, rfl⟩ | ⟨hse, rfl, rfl⟩ | ⟨u, hse, hu, rfl, rfl⟩ <;>
      rcases hrest with ⟨hT, hd⟩ | ⟨hT, ⟨hS, hd⟩ | ⟨hS, ⟨hg, hd⟩ | ⟨us, hg, hd⟩⟩⟩ <;>
      (rw [hd] at h; simp at h) <;> exact h

/-- A subpage-scan event is impossible once the search stage found a URL
that verified: the chain stopped there. -/
theorem disc_subpages_no_verified_search (env : Env) (doc : Doc) (url nm b u : String)
    (hnm : nm ≠ "") (hse : env.searchEngines nm = some u) (hu : u ≠ "")
    (hver : env.verifyOne u = true)
    (h : Ev.subpages b ∈ (discoverProfile env doc url nm none).2) : False := by
  rcases discoverProfile_none_spec env doc url nm with ⟨_, hd⟩ | ⟨_, hnm0, _⟩ |
    ⟨hps, _, v2, t2, hc, hrest⟩
  · rw [hd] at h
    simp at h
  · exact hnm hnm0
  · rcases hc with ⟨hse2, rfl, rfl⟩ | ⟨hse2, rfl, rfl⟩ | ⟨u2, hse2, hu2, rfl, rfl⟩
    · rw [hse] at hse2
      simp at hse2
    · rw [hse] at hse2
      simp at hse2
      exact hu hse2
    · rw [hse] at hse2
      injection hse2 with h2
      subst h2
      rcases hrest with ⟨hT, hd⟩ | ⟨hT, _⟩
      · rw [hd] at h
        simp at h
      · rw [hver] at hT
        simp [truthy, hu] at hT

/-- A verification event on a multi-candidate list comes from the generation
stage, which runs only after the scan, the search and the subpage scan all
produced nothing. -/
theorem disc_genverify (env : Env) (doc : Doc) (url nm : String) (us : List String)
    (hlen : 2 ≤ us.length)
    (h : Ev.verify us ∈ (discoverProfile env doc url nm none).2) :
    truthy (pageScan doc url) = false ∧ truthy env.subpagesResult = false := by
  rcases discoverProfile_none_spec env doc url nm with ⟨_, hd⟩ | ⟨_, _, hd⟩ |
    ⟨hps, hnm, v2, t2, hc, hrest⟩
  · rw [hd] at h
    simp at h
  · rw [hd] at h
    simp at h
  · refine ⟨hps, ?_⟩
    have ht2 : Ev.verify us ∉ t2 := by
      rcases hc with ⟨_, _, rfl⟩ | ⟨_, _, rfl⟩ | ⟨u, _, hu, _, rfl⟩
      · simp
      · simp
      · simp
        intro hequ
        subst hequ
        simp at hlen
    rcases hrest with ⟨hT, hd⟩ | ⟨hT, ⟨hS, hd⟩ | ⟨hS, ⟨hg, hd⟩ | ⟨us2, hg, hd⟩⟩⟩
    · rw [hd] at h
      exact absurd h ht2
    · rw [hd] at h
      simp at h
      exact absurd h ht2
    · exact hS
    · exact hS

/-! ## C4 — `deriveExpectedNameFromUrl("https://www.my-coolapp.io")` -/

/-- C4 counterexample: the claimed output `"Coolapp"` is not what the code
produces for `https://www.my-coolapp.io`. -/
theorem C4_cx_not_coolapp :
    extract_company_name_from_url "https://www.my-coolapp.io" ≠ "Coolapp" := by decide

/-- C4 (amended): `extract_company_name_from_url "https://www.my-coolapp.io"`
returns `"Cool"` — the first hostname label is `my-coolapp` (so the `.io`
TLD vanishes when the label is taken, before any suffix stripping), the
prefix `my` is stripped leaving `-coolapp`, the suffix `app` is then
stripped leaving `-cool`, and the remaining hyphen-separated segment is
capitalized. -/
theorem C4_url_name_cool :
    extract_company_name_from_url "https://www.my-coolapp.io" = "Cool" := by decide

/-! ## C5 — idempotence of the prefix/suffix stripping rule -/

/-- C5 counterexample: the stripping rule is not idempotent.  On the domain
label `getmyx` one application strips the prefix `get` giving `myx`, and
re-applying strips the prefix `my` giving `x`. -/
theorem C5_cx_not_idempotent :
    stripDomainAffixes "getmyx" = "myx" ∧ stripDomainAffixes "myx" = "x" ∧
      stripDomainAffixes (stripDomainAffixes "getmyx") ≠ stripDomainAffixes "getmyx" := by
  decide

theorem prefixes_to_remove_nonempty : ∀ p ∈ prefixes_to_remove, 0 < p.data.length := by
  decide

theorem suffixes_to_remove_nonempty : ∀ p ∈ suffixes_to_remove, 0 < p.data.length := by
  decide

/-- When the front of `s` is still strippable, the prefix stage strictly
shortens it. -/
theorem stripPreOnce_lt {s : String} (h : hasStrippableFront s = true) :
    (stripPreOnce s.data).length < s.data.length := by
  unfold stripPreOnce
  rcases hfind : prefixes_to_remove.find?
      (fun p => p.data.isPrefixOf s.data && decide (p.data.length < s.data.length)) with _ | q
  · rw [List.find?_eq_none] at hfind
    unfold hasStrippableFront at h
    rw [List.any_eq_true] at h
    obtain ⟨p, hp, hpred⟩ := h
    exact absurd hpred (hfind p hp)
  · have hmem : q ∈ prefixes_to_remove := List.mem_of_find?_eq_some hfind
    have hpred := List.find?_some hfind
    rw [Bool.and_eq_true, decide_eq_true_eq] at hpred
    have h1 : 0 < q.data.length := prefixes_to_remove_nonempty q hmem
    rw [hfind]
    show (s.data.drop q.data.length).length < s.data.length
    rw [List.length_drop]
    omega

/-- When the back of `s` is still strippable, the suffix stage strictly
shortens it. -/
theorem stripSufOnce_lt {s : String} (h : hasStrippableBack s = true) :
    (stripSufOnce s.data).length < s.data.length := by
  unfold stripSufOnce
  rcases hfind : suffixes_to_remove.find?
      (fun p => p.data.isSuffixOf s.data && decide (p.data.length < s.data.length)) with _ | q
  · rw [List.find?_eq_none] at hfind
    unfold hasStrippableBack at h
    rw [List.any_eq_true] at h
    obtain ⟨p, hp, hpred⟩ := h
    exact absurd hpred (hfind p hp)
  · have hmem : q ∈ suffixes_to_remove := List.mem_of_find?_eq_some hfind
    have hpred := List.find?_some hfind
    rw [Bool.and_eq_true, decide_eq_true_eq] at hpred
    have h1 : 0 < q.data.length := suffixes_to_remove_nonempty q hmem
    rw [hfind]
    show (s.data.take (s.data.length - q.data.length)).length < s.data.length
    rw [List.length_take]
    omega

/-- The suffix stage never lengthens its input. -/
theorem stripSufOnce_le (l : List Char) : (stripSufOnce l).length ≤ l.length := by
  unfold stripSufOnce
  rcases hfind : suffixes_to_remove.find?
      (fun p => p.data.isSuffixOf l && decide (p.data.length < l.length)) with _ | q
  · rw [hfind]
  · rw [hfind]
    show (l.take (l.length - q.data.length)).length ≤ l.length
    rw [List.length_take]
    omega

/-- When the front of `s` is not strippable, the prefix stage is the
identity. -/
theorem stripPreOnce_of_stable {s : String} (h : hasStrippableFront s = false) :
    stripPreOnce s.data = s.data := by
  unfold stripPreOnce
  have : prefixes_to_remove.find?
      (fun p => p.data.isPrefixOf s.data && decide (p.data.length < s.data.length)) = none := by
    rw [List.find?_eq_none]
    intro p hp
    unfold hasStrippableFront at h
    rw [List.any_eq_false] at h
    exact h p hp
  rw [this]

/-- When the back of `s` is not strippable, the suffix stage is the
identity. -/
theorem stripSufOnce_of_stable {s : String} (h : hasStrippableBack s = false) :
    stripSufOnce s.data = s.data := by
  unfold stripSufOnce
  have : suffixes_to_remove.find?
      (fun p => p.data.isSuffixOf s.data && decide (p.data.length < s.data.length)) = none := by
    rw [List.find?_eq_none]
    intro p hp
    unfold hasStrippableBack at h
    rw [List.any_eq_false] at h
    exact h p hp
  rw [this]

/-- One application of the stripping rule strictly shortens any string that
still has a strippable prefix or suffix — so it changes it. -/
theorem stripDomainAffixes_changes (s : String)
    (h : hasStrippableFront s = true ∨ hasStrippableBack s = true) :
    stripDomainAffixes s ≠ s := by
  have hlen : (stripDomainAffixes s).data.length < s.data.length := by
    show (stripSufOnce (stripPreOnce s.data)).length < s.data.length
    rcases h with h | h
    · calc (stripSufOnce (stripPreOnce s.data)).length
          ≤ (stripPreOnce s.data).length := stripSufOnce_le _
        _ < s.data.length := stripPreOnce_lt h
    · cases hf : hasStrippableFront s with
      | true =>
        calc (stripSufOnce (stripPreOnce s.data)).length
            ≤ (stripPreOnce s.data).length := stripSufOnce_le _
          _ < s.data.length := stripPreOnce_lt hf
      | false =>
        rw [stripPreOnce_of_stable hf]
        exact stripSufOnce_lt h
  intro he
  rw [he] at hlen
  exact lt_irrefl _ hlen

/-- C5 (amended): one application strips at most one prefix and one suffix,
so the rule is not idempotent in general; re-applying it to its own output
changes nothing if and only if that output has no further strippable listed
prefix and no further strippable listed suffix (re-application strictly
shortens the output otherwise). -/
theorem C5_strip_idempotent_iff_stable :
    ∀ d : String,
      stripDomainAffixes (stripDomainAffixes d) = stripDomainAffixes d ↔
      (hasStrippableFront (stripDomainAffixes d) = false ∧
       hasStrippableBack (stripDomainAffixes d) = false) := by
  intro d
  constructor
  · intro hid
    cases hf : hasStrippableFront (stripDomainAffixes d) with
    | true => exact absurd hid (stripDomainAffixes_changes _ (Or.inl hf))
    | false =>
      cases hb : hasStrippableBack (stripDomainAffixes d) with
      | true => exact absurd hid (stripDomainAffixes_changes _ (Or.inr hb))
      | false => exact ⟨rfl, rfl⟩
  · rintro ⟨hf, hb⟩
    show (⟨stripSufOnce (stripPreOnce (stripDomainAffixes d).data)⟩ : String) = stripDomainAffixes d
    rw [stripPreOnce_of_stable hf, stripSufOnce_of_stable hb]

/-- C5 witness: both directions of the amended characterization at concrete
labels — `acme` strips to a stable output and is a fixed point of
re-application, while `getmyx` strips to `myx`, which is still strippable,
so re-application changes it. -/
theorem C5_strip_idempotent_witness :
    stripDomainAffixes (stripDomainAffixes "acme") = stripDomainAffixes "acme" ∧
      ¬ (hasStrippableFront (stripDomainAffixes "getmyx") = false ∧
         hasStrippableBack (stripDomainAffixes "getmyx") = false) :=
  ⟨(C5_strip_idempotent_iff_stable "acme").mpr ⟨by decide, by decide⟩,
   fun hstable => absurd ((C5_strip_idempotent_iff_stable "getmyx").mpr hstable) (by decide)⟩

/-! ## C6 — the character-overlap acceptance rule of the validator -/

/-- C6 counterexample: for the name `bca` against `https://abc.com` the
character-overlap similarity is 1.0 (`3 * max ≤ 5 * common` is the exact
meaning of `common / max ≥ 0.6`), yet the validator rejects, because the
similarity branch only runs when both the normalized name and the domain
label are longer than 3 characters (line 860). -/
theorem C6_cx_short_strings_rejected :
    3 * max (cleanNameChars "bca").length (lowerL (firstLabelOf "https://abc.com").data).length ≤
      5 * commonCharCount (cleanNameChars "bca") (lowerL (firstLabelOf "https://abc.com").data) ∧
    validate_name_against_url "bca" "https://abc.com" = false := by decide

/-- C6 (amended): the validator accepts via character-overlap similarity
≥ 0.6 only under the additional side condition that the normalized name and
the domain label both have length greater than 3; with that side condition
acceptance is guaranteed, and the two concrete examples behave as claimed. -/
theorem C6_overlap_acceptance :
    (∀ name url : String, name ≠ "" → url ≠ "" →
      3 < (cleanNameChars name).length →
      3 < (lowerL (firstLabelOf url).data).length →
      3 * max (cleanNameChars name).length (lowerL (firstLabelOf url).data).length ≤
        5 * commonCharCount (cleanNameChars name) (lowerL (firstLabelOf url).data) →
      validate_name_against_url name url = true) ∧
    validate_name_against_url "Acme Corp" "https://acme.com" = true ∧
    validate_name_against_url "Unrelated Page Title" "https://acme.com" = false := by
  refine ⟨?_, by decide, by decide⟩
  intro name url hn hu hl1 hl2 hsim
  unfold validate_name_against_url
  rw [if_neg (by simp [hn, hu])]
  dsimp only
  split
  · rfl
  · split
    · rfl
    · split
      · rfl
      · rw [if_pos]
        simp [hl1, hl2, hsim]

/-- C6 witness: the amended acceptance rule applied at the concrete pair
(`hollo`, `https://holl.com`), whose similarity is 1.0 with both lengths
above 3. -/
theorem C6_overlap_acceptance_witness :
    validate_name_against_url "hollo" "https://holl.com" = true :=
  C6_overlap_acceptance.1 "hollo" "https://holl.com" (by decide) (by decide) (by decide)
    (by decide) (by decide)

/-! ## C8 — the overview sufficiency gate -/

/-- C8: `is_overview_empty_or_insufficient` returns true exactly when the
text is empty or whitespace-only, or its trimmed length is below 20, or it
contains one of the fixed boilerplate phrases case-insensitively, or its
word count is below 5; and the three concrete examples behave as claimed. -/
theorem C8_gate_equiv :
    (∀ s : String, is_overview_empty_or_insufficient s = specInsufficient s) ∧
    is_overview_empty_or_insufficient "" = true ∧
    is_overview_empty_or_insufficient "Welcome to our site" = true ∧
    is_overview_empty_or_insufficient
      "We build distributed storage systems for financial institutions worldwide." = false := by
  refine ⟨?_, by decide, by decide, by decide⟩
  intro s
  unfold is_overview_empty_or_insufficient specInsufficient
  by_cases hs : s = ""
  · subst hs
    decide
  · rw [if_neg hs]
    dsimp only
    by_cases hlen : (pyStrip s).data.length < 20
    · rw [if_pos hlen, decide_eq_true hlen]
      simp only [Bool.true_or, Bool.or_true]
    · have hne : ¬ pyStrip s = "" := by
        intro h
        exact hlen (by rw [h]; decide)
      rw [if_neg hlen, decide_eq_false hlen, decide_eq_false hne]
      simp only [Bool.false_or]
      by_cases hph : generic_phrases.any (fun ph => hasSub ⟨lowerL (pyStrip s).data⟩ ph) = true
      · rw [if_pos hph, hph, Bool.true_or]
      · rw [if_neg hph, Bool.eq_false_iff.mpr hph, Bool.false_or]
        by_cases hwc : (pyWords (pyStrip s).data).length < 5
        · rw [if_pos hwc, decide_eq_true hwc]
        · rw [if_neg hwc, decide_eq_false hwc]

/-! ## C1 — `error` is set only when the top-level fetch fails? -/

/-- C1: evaluation at the failing input.  The fetch succeeds (`fetchHome` is
a document), but the document has no name-bearing selector hit and no
`<title>` element, so `extract_name_from_title` raises at line 321
(`doc.title.string` on `None`); the exception escapes to the top-level
handler (lines 775-777), which sets `error` even though the fetch
succeeded — and the result carries only `url` and `error`. -/
theorem C1_error_despite_fetch_success :
    envNoTitle.fetchHome ≠ none ∧
    (scrape_company envNoTitle "https://acme.com").1 =
      { emptyResult "https://acme.com" with
          error := some "AttributeError: NoneType object has no attribute string" } := by
  constructor
  · simp [envNoTitle]
  · decide

/-! ## C7 — verification of generated / search-engine candidates -/

/-- C7: evaluation at the failing input.  The extracted name fails
validation, the fallback search (line 633) returns a LinkedIn URL, its
existence probe fails — yet `scrape_company` promotes the unverified URL to
the result, because the failure branch at lines 650-652 replaces only the
name and never clears `linkedin_url` (contrast lines 733-735, where the
general-chain search result is overwritten by the verification outcome). -/
theorem C7_unverified_search_url_promoted :
    validate_name_against_url "Zzzz Qqq" "https://acme.com" = false ∧
    envUnverifiedSearch.verifyOne "https://www.linkedin.com/company/ghost" = false ∧
    (scrape_company envUnverifiedSearch "https://acme.com").1.linkedin =
      some "https://www.linkedin.com/company/ghost" ∧
    Ev.verify ["https://www.linkedin.com/company/ghost"] ∈
      (scrape_company envUnverifiedSearch "https://acme.com").2 := by decide

/-! ## C2 — order of the profile-URL discovery stages -/

/-- C2 counterexample: a run in which a search-engine query is issued
before the common-subpage scan is attempted (both events occur in the
trace, the search first), refuting the claimed order in which the
common-subpage scan and name-based generation precede any search-engine
query. -/
theorem C2_cx_search_before_subpages :
    Ev.search "Acme" ∈ (scrape_company envSubpagesOnly "https://acme.com").2 ∧
    Ev.subpages "https://acme.com" ∈ (scrape_company envSubpagesOnly "https://acme.com").2 ∧
    (scrape_company envSubpagesOnly "https://acme.com").2.indexOf (Ev.search "Acme") <
      (scrape_company envSubpagesOnly "https://acme.com").2.indexOf
        (Ev.subpages "https://acme.com") := by decide

/-- C2 (amended): profile-URL discovery has no configured-selector stage and
runs, in order: (1) in-page link scan, (2) search-engine query keyed on the
extracted name with verification of its result, (3) common-subpage scan,
(4) name-based generation with verification — each stage only when every
previous stage produced nothing usable.  Stated on the validated-name path:
a scan hit suppresses all external discovery calls; any search is for the
extracted name and only after the scan failed; the subpage scan runs only
after the scan failed and any verified search result is absent; when both a
search and a subpage scan occur, the search comes first in the trace; and
generation probes (lists of two or more candidates) run only after the scan
and the subpage scan both produced nothing. -/
theorem C2_discovery_order_amended :
    ∀ (env : Env) (url : String) (doc : Doc) (nm : String),
      env.fetchHome = some doc →
      extract_name_from_title doc url = Except.ok nm →
      validate_name_against_url nm url = true →
      ((truthy (pageScan doc url) = true →
         (∀ s, Ev.search s ∉ (scrape_company env url).2) ∧
         (∀ us, Ev.verify us ∉ (scrape_company env url).2) ∧
         (∀ b, Ev.subpages b ∉ (scrape_company env url).2)) ∧
       (∀ s, Ev.search s ∈ (scrape_company env url).2 →
         s = nm ∧ truthy (pageScan doc url) = false) ∧
       (∀ b, Ev.subpages b ∈ (scrape_company env url).2 →
         b = url ∧ truthy (pageScan doc url) = false ∧
         (∀ u, env.searchEngines nm = some u → u ≠ "" → env.verifyOne u = false)) ∧
       (Ev.search nm ∈ (scrape_company env url).2 →
        Ev.subpages url ∈ (scrape_company env url).2 →
         ∃ l₁ rest, (scrape_company env url).2 = l₁ ++ Ev.search nm :: rest ∧
           Ev.subpages url ∈ rest) ∧
       (∀ us, generate_linkedin_url nm = some us →
         Ev.verify us ∈ (scrape_company env url).2 →
         truthy (pageScan doc url) = false ∧ truthy env.subpagesResult = false)) := by
  intro env url doc nm h1 h2 h3
  have hnm : nm ≠ "" := validate_true_name_ne h3
  obtain ⟨hlink, htr⟩ := scrape_company_ok_valid env url doc nm h1 h2 h3
  have hmem : ∀ e, e ∈ (scrape_company env url).2 →
      e ∈ (discoverProfile env doc url nm none).2 ∨ e = Ev.fetchHome url ∨
      ∃ a b c, e = Ev.scrapeLI a b c := by
    intro e he
    rw [htr] at he
    rcases List.mem_cons.mp he with he | he
    · exact Or.inr (Or.inl he)
    · rcases List.mem_append.mp he with he | he
      · exact Or.inl he
      · refine Or.inr (Or.inr ?_)
        revert he
        split
        · intro he
          simp at he
          exact ⟨_, _, _, he⟩
        · intro he
          simp at he
  have hmemS : ∀ s, Ev.search s ∈ (scrape_company env url).2 →
      Ev.search s ∈ (discoverProfile env doc url nm none).2 := by
    intro s hs
    rcases hmem _ hs with h | h | ⟨a, b, c, h⟩
    · exact h
    · exact absurd h (by simp)
    · exact absurd h (by simp)
  have hmemV : ∀ us, Ev.verify us ∈ (scrape_company env url).2 →
      Ev.verify us ∈ (discoverProfile env doc url nm none).2 := by
    intro us hs
    rcases hmem _ hs with h | h | ⟨a, b, c, h⟩
    · exact h
    · exact absurd h (by simp)
    · exact absurd h (by simp)
  have hmemB : ∀ b, Ev.subpages b ∈ (scrape_company env url).2 →
      Ev.subpages b ∈ (discoverProfile env doc url nm none).2 := by
    intro b hs
    rcases hmem _ hs with h | h | ⟨a, b2, c, h⟩
    · exact h
    · exact absurd h (by simp)
    · exact absurd h (by simp)
  refine ⟨?_, ?_, ?_, ?_, ?_⟩
  · intro hps
    have hdn := disc_trace_nil env doc url nm hps
    refine ⟨?_, ?_, ?_⟩
    · intro s hs
      have := hmemS s hs
      rw [hdn] at this
      simp at this
    · intro us hs
      have := hmemV us hs
      rw [hdn] at this
      simp at this
    · intro b hs
      have := hmemB b hs
      rw [hdn] at this
      simp at this
  · intro s hs
    exact disc_search_char env doc url nm s (hmemS s hs)
  · intro b hb
    obtain ⟨hbu, hscan⟩ := disc_subpages_char env doc url nm b hnm (hmemB b hb)
    refine ⟨hbu, hscan, ?_⟩
    intro u hse hu
    cases hver : env.verifyOne u with
    | false => rfl
    | true =>
      exact absurd (hmemB b hb)
        (fun hin => disc_subpages_no_verified_search env doc url nm b u hnm hse hu hver hin)
  · intro hsrch hsub
    obtain ⟨rest, hhead⟩ := disc_search_head env doc url nm (hmemS nm hsrch)
    refine ⟨[Ev.fetchHome url], rest ++ (if truthy (discoverProfile env doc url nm none).1 = true
      then [Ev.scrapeLI ((discoverProfile env doc url nm none).1.getD "")
        (is_overview_empty_or_insufficient doc.overview) (decide (nm = ""))] else []), ?_, ?_⟩
    · rw [htr, hhead]
      rfl
    · have hin : Ev.subpages url ∈ Ev.search nm :: rest := by
        rw [← hhead]
        exact hmemB url hsub
      rcases List.mem_cons.mp hin with h | h
      · exact absurd h (by simp)
      · exact List.mem_append.mpr (Or.inl h)
  · intro us hgen hv
    have hlen : 2 ≤ us.length := le_trans (by norm_num) (generate_linkedin_url_len hgen)
    exact disc_genverify env doc url nm us hlen (hmemV us hv)

/-- C2 witness: the amended order property applied at a concrete run
(`envSubpagesOnly`): the subpage-scan event in the trace implies the in-page
scan produced nothing and the search result failed verification. -/
theorem C2_discovery_order_witness :
    truthy (pageScan docAcmeNoLinks "https://acme.com") = false :=
  ((C2_discovery_order_amended envSubpagesOnly "https://acme.com" docAcmeNoLinks "Acme"
      rfl rfl (by decide)).2.2.1 "https://acme.com" (by decide)).2.1

/-! ## C3 — the enrichment gate -/

/-- C3 counterexample: a run with a profile URL found in the markup, a
sufficient homepage overview and a validated name, in which the profile
page is nevertheless fetched (the enrichment call at line 755 is guarded
only by `if linkedin_url:`; the sufficiency and name flags merely select
which fields are requested). -/
theorem C3_cx_enrichment_despite_sufficiency :
    validate_name_against_url "Acme" "https://acme.com" = true ∧
    is_overview_empty_or_insufficient docAcmeWithLink.overview = false ∧
    (scrape_company envPageLinkOnly "https://acme.com").1.linkedin =
      some "https://www.linkedin.com/company/acme" ∧
    Ev.scrapeLI "https://www.linkedin.com/company/acme" false false ∈
      (scrape_company envPageLinkOnly "https://acme.com").2 := by decide

/-- The discovery chain itself never fetches a profile page: its trace
contains no enrichment call. -/
theorem disc_no_scrapeLI (env : Env) (doc : Doc) (url nm uu : String) (no ex : Bool) :
    Ev.scrapeLI uu no ex ∉ (discoverProfile env doc url nm none).2 := by
  intro h
  rcases discoverProfile_none_spec env doc url nm with ⟨_, hd⟩ | ⟨_, _, hd⟩ |
    ⟨_, _, v2, t2, hc, hrest⟩
  · rw [hd] at h
    simp at h
  · rw [hd] at h
    simp at h
  · rcases hc with ⟨_, rfl, rfl⟩ | ⟨_, rfl, rfl⟩ | ⟨u, _, hu, rfl, rfl⟩ <;>
      rcases hrest with ⟨hT, hd⟩ | ⟨hT, ⟨hS, hd⟩ | ⟨hS, ⟨hg, hd⟩ | ⟨us, hg, hd⟩⟩⟩ <;>
      (rw [hd] at h; simp at h)

/-- C3 (amended): on the validated-name path the enrichment fetch of the
profile page happens exactly when a profile URL was found — regardless of
overview sufficiency — and its flags are: overview extraction requested iff
the homepage overview was insufficient, name extraction requested iff the
final name is empty (never, once a name validated). -/
theorem C3_enrichment_gate_amended :
    ∀ (env : Env) (url : String) (doc : Doc) (nm : String),
      env.fetchHome = some doc →
      extract_name_from_title doc url = Except.ok nm →
      validate_name_against_url nm url = true →
      ((truthy (scrape_company env url).1.linkedin = true →
         Ev.scrapeLI ((scrape_company env url).1.linkedin.getD "")
           (is_overview_empty_or_insufficient doc.overview) false ∈
           (scrape_company env url).2) ∧
       (truthy (scrape_company env url).1.linkedin = false →
         ∀ u no ex, Ev.scrapeLI u no ex ∉ (scrape_company env url).2)) := by
  intro env url doc nm h1 h2 h3
  have hnm : nm ≠ "" := validate_true_name_ne h3
  have hnm' : decide (nm = "") = false := decide_eq_false hnm
  obtain ⟨hlink, htr⟩ := scrape_company_ok_valid env url doc nm h1 h2 h3
  constructor
  · intro ht
    rw [hlink] at ht
    rw [hlink, htr, if_pos ht, hnm']
    simp
  · intro hf u no ex hin
    rw [hlink] at hf
    rw [htr, if_neg (by simp [hf])] at hin
    simp only [List.append_nil, List.mem_cons] at hin
    rcases hin with hin | hin
    · exact absurd hin (by simp)
    · exact disc_no_scrapeLI env doc url nm u no ex hin

/-- C3 witness: the amended statement applied at a concrete run
(`envPageLinkOnly`): the profile URL found in the markup triggers the
enrichment fetch with both extraction flags off. -/
theorem C3_enrichment_gate_witness :
    Ev.scrapeLI ((scrape_company envPageLinkOnly "https://acme.com").1.linkedin.getD "")
      (is_overview_empty_or_insufficient docAcmeWithLink.overview) false ∈
      (scrape_company envPageLinkOnly "https://acme.com").2 :=
  (C3_enrichment_gate_amended envPageLinkOnly "https://acme.com" docAcmeWithLink "Acme"
    rfl rfl (by decide)).1 (by decide)

/-- The result's `name` field on the validated path: the extracted name is
kept (enrichment requests no name, since the final name is non-empty). -/
theorem scrape_name_valid (env : Env) (url : String) (doc : Doc) (nm : String)
    (h1 : env.fetchHome = some doc) (h2 : extract_name_from_title doc url = Except.ok nm)
    (h3 : validate_name_against_url nm url = true) :
    (scrape_company env url).1.name = some nm := by
  simp only [scrape_company, h1, h2, h3, Bool.true_eq_false, false_and, if_false]
  split
  · simp [scrape_linkedin_info, decide_eq_false (validate_true_name_ne h3)]
  · rfl

/-- The result's `name` field on the failed-validation path, in terms of the
fallback outcome (lines 629-655) and the enrichment overwrite (line 764). -/
theorem scrape_name_invalid (env : Env) (url : String) (doc : Doc) (nm : String)
    (h1 : env.fetchHome = some doc) (h2 : extract_name_from_title doc url = Except.ok nm)
    (h3 : validate_name_against_url nm url = false)
    (hexp : extract_company_name_from_url url ≠ "") :
    (scrape_company env url).1.name =
      some (if truthy (discoverProfile env doc url nm
              (nameFallback env (extract_company_name_from_url url)).2.1).1 = true then
          ((scrape_linkedin_info env
              ((discoverProfile env doc url nm
                 (nameFallback env (extract_company_name_from_url url)).2.1).1.getD "")
              (is_overview_empty_or_insufficient doc.overview)
              (decide ((nameFallback env (extract_company_name_from_url url)).1 = ""))).name.getD
            (nameFallback env (extract_company_name_from_url url)).1)
        else (nameFallback env (extract_company_name_from_url url)).1) := by
  simp only [scrape_company, h1, h2]
  rw [if_pos (And.intro h3 hexp)]
  split <;> rfl

/-- The fallback outcome when the search returns a verified URL: the name
recovered from the profile page (when non-empty) wins, else the expected
name; the verified URL is kept. -/
theorem nameFallback_verified (env : Env) (expected u : String)
    (hse : env.searchEngines expected = some u) (hu : u ≠ "")
    (hver : env.verifyOne u = true) :
    nameFallback env expected =
      ((match (env.liPage u).name with
        | some n => if n = "" then expected else n
        | none => expected), some u,
       [Ev.search expected, Ev.verify [u], Ev.scrapeLI u false true]) := by
  unfold nameFallback
  rw [hse]
  simp [hu, verify_one, hver, scrape_linkedin_info]

/-- The fallback outcome when the search returns a URL that fails
verification: the expected name is used — but the unverified URL is kept. -/
theorem nameFallback_unverified (env : Env) (expected u : String)
    (hse : env.searchEngines expected = some u) (hu : u ≠ "")
    (hver : env.verifyOne u = false) :
    nameFallback env expected = (expected, some u, [Ev.search expected, Ev.verify [u]]) := by
  unfold nameFallback
  rw [hse]
  simp [hu, verify_one, hver]

/-- The fallback outcome when the search finds nothing: the expected name. -/
theorem nameFallback_no_hit (env : Env) (expected : String)
    (hse : env.searchEngines expected = none) :
    nameFallback env expected = (expected, none, [Ev.search expected]) := by
  unfold nameFallback
  rw [hse]

/-! ## C9 — the three-tier name precedence -/

/-- C9: when the extracted homepage name fails validation and the
URL-derived expected name is non-empty, the final name follows the
three-tier precedence of lines 629-655: a non-empty name recovered from the
verified profile page wins; otherwise the URL-derived expected name is used
(also when the search found nothing or its result failed verification); and
when the extracted name passes validation it is kept unchanged. -/
theorem C9_name_precedence :
    ∀ (env : Env) (url : String) (doc : Doc) (nm : String),
      env.fetchHome = some doc →
      extract_name_from_title doc url = Except.ok nm →
      (((validate_name_against_url nm url = false ∧
         extract_company_name_from_url url ≠ "") →
        ((∀ u pn, env.searchEngines (extract_company_name_from_url url) = some u → u ≠ "" →
           env.verifyOne u = true → (env.liPage u).name = some pn → pn ≠ "" →
           (scrape_company env url).1.name = some pn) ∧
         (∀ u, env.searchEngines (extract_company_name_from_url url) = some u → u ≠ "" →
           env.verifyOne u = true →
           ((env.liPage u).name = none ∨ (env.liPage u).name = some "") →
           (scrape_company env url).1.name = some (extract_company_name_from_url url)) ∧
         (∀ u, env.searchEngines (extract_company_name_from_url url) = some u → u ≠ "" →
           env.verifyOne u = false →
           (scrape_company env url).1.name = some (extract_company_name_from_url url)) ∧
         (env.searchEngines (extract_company_name_from_url url) = none →
           (scrape_company env url).1.name = some (extract_company_name_from_url url)))) ∧
       (validate_name_against_url nm url = true →
         (scrape_company env url).1.name = some nm)) := by
  intro env url doc nm h1 h2
  constructor
  · rintro ⟨hv, hexp⟩
    have hbase := scrape_name_invalid env url doc nm h1 h2 hv hexp
    refine ⟨?_, ?_, ?_, ?_⟩
    · intro u pn hse hu hver hpn hpne
      have hfb := nameFallback_verified env (extract_company_name_from_url url) u hse hu hver
      have htu : truthy (some u) = true := by simp [truthy, hu]
      rw [hbase, hfb]
      dsimp only
      rw [discoverProfile_of_truthy env doc url nm (some u) htu]
      dsimp only
      rw [if_pos htu, hpn]
      dsimp only
      rw [if_neg hpne]
      simp [scrape_linkedin_info, decide_eq_false hpne]
    · intro u hse hu hver hpn
      have hfb := nameFallback_verified env (extract_company_name_from_url url) u hse hu hver
      have htu : truthy (some u) = true := by simp [truthy, hu]
      rw [hbase, hfb]
      dsimp only
      rw [discoverProfile_of_truthy env doc url nm (some u) htu]
      dsimp only
      rw [if_pos htu]
      rcases hpn with hpn | hpn <;>
        rw [hpn] <;>
        simp [scrape_linkedin_info, decide_eq_false hexp]
    · intro u hse hu hver
      have hfb := nameFallback_unverified env (extract_company_name_from_url url) u hse hu hver
      have htu : truthy (some u) = true := by simp [truthy, hu]
      rw [hbase, hfb]
      dsimp only
      rw [discoverProfile_of_truthy env doc url nm (some u) htu]
      dsimp only
      rw [if_pos htu]
      simp [scrape_linkedin_info, decide_eq_false hexp]
    · intro hse
      have hfb := nameFallback_no_hit env (extract_company_name_from_url url) hse
      rw [hbase, hfb]
      dsimp only
      cases hT : truthy (discoverProfile env doc url nm none).1 <;>
        simp [hT, scrape_linkedin_info, decide_eq_false hexp]
  · intro h3
    exact scrape_name_valid env url doc nm h1 h2 h3

/-- C9 witness: the profile-page tier applied at a concrete run
(`envProfileName`): the mismatched homepage name is replaced by the name
recovered from the verified profile page. -/
theorem C9_name_precedence_witness :
    (scrape_company envProfileName "https://zzz.com").1.name = some "Zzz Systems" :=
  (((C9_name_precedence envProfileName "https://zzz.com" docZzz "Wholly Unrelated"
      rfl rfl).1 ⟨by decide, by decide⟩).1 "https://www.linkedin.com/company/zzz" "Zzz Systems"
      (by decide) (by decide) (by decide) (by decide) (by decide))

/-! ## C10 — the `url` key always carries the input unchanged -/

/-- C10: on every path (fetch failure, name-extraction failure, and the
whole success path including enrichment) the result's `url` field is the
input URL unchanged. -/
theorem C10_url_preserved :
    ∀ (env : Env) (url : String), (scrape_company env url).1.url = url := by
  intro env url
  rcases hf : env.fetchHome with _ | doc
  · simp only [scrape_company, hf, emptyResult]
  · rcases he : extract_name_from_title doc url with e | nm
    · simp only [scrape_company, hf, he, emptyResult]
    · simp only [scrape_company, hf, he]
      split <;> split <;> rfl
